import Mathlib

/-!
Verification of the spinter 6502-family emulator core against its
natural-language specification.  The definitions below are a shallow
embedding of the Rust sources: bytes and words are `Nat` with explicit
`% 256` / `% 65536` where the machine types wrap, fallible code (Rust
panics) returns `Option`, and the coroutine steppers become pure
functions that also report the bus transactions they issue and the
number of half-cycle suspension points they pass.
-/

set_option maxRecDepth 4000

namespace Spinter

/-- Direction of a pin or of a data port (`PinDirection` in the source). -/
inductive PinDirection
| Input
| Output
deriving DecidableEq, Repr

/-- Modelled from the spec: `PinDirection::from(bool)` lives in
`abstractions/pin.rs`, which is missing from the sources; the spec's rule
"WE edge: direction of D ← (WE low ⇒ Input else Output)" together with the
`WE` arm `set_data_direction(val)` of `HM62256B::on_pin_state_change`
forces `from(true) = Output` and `from(false) = Input`. -/
def PinDirection.fromBool (b : Bool) : PinDirection :=
  if b then .Output else .Input

/-- The 6502 mnemonics (enum `Mnemonic` in `mnemonic.rs`). -/
inductive Mnemonic
| ADC | AND | ASL | BCC | BCS | BEQ | BIT | BMI | BNE | BPL | BRK | BVC | BVS
| CLC | CLD | CLI | CLV | CMP | CPX | CPY | DEC | DEX | DEY | EOR | INC | INX
| INY | JMP | JSR | LDA | LDX | LDY | LSR | NOP | ORA | PHA | PHP | PLA | PLP
| ROL | ROR | RTI | RTS | SBC | SEC | SED | SEI | STA | STX | STY | TAX | TAY
| TSX | TXA | TXS | TYA
deriving DecidableEq, Repr

/-- The 13 addressing modes (enum `AddressMode` in `address_mode.rs`). -/
inductive AddressMode
| Implicit | Accumulator | Immediate | Relative
| ZeroPage | ZeroPageX | ZeroPageY
| Absolute | AbsoluteX | AbsoluteY
| Indirect | IndirectX | IndirectY
deriving DecidableEq, Repr

/-- The part of `OperationDef` (`operation_def.rs`) that the executor and
the steppers consult: mnemonic, addressing mode, and the executor-dispatch
string `fn_name`. -/
structure OperationDef where
  mnemonic : Mnemonic
  address_mode : AddressMode
  fn_name : String
deriving DecidableEq, Repr

/-- Modelled from the spec: `opcodes_def.rs` (the static opcode table that
assigns every `OperationDef` its executor-tag string) is missing from the
sources.  The spec describes one executor tag per mnemonic class (§4.6),
and the dispatch arms of `execute_operation` (including the commented-out
ones) name the tag for each class, so the mapping below is forced. -/
def fn_name_of : Mnemonic → String
| .ADC | .SBC => "op_arithmetic"
| .BIT => "op_bit"
| .AND | .ORA | .EOR => "op_bitwise"
| .BCC | .BCS | .BNE | .BEQ | .BPL | .BMI | .BVC | .BVS => "op_branch"
| .BRK => "op_brk"
| .CMP | .CPX | .CPY => "op_compare"
| .CLC | .SEC | .CLI | .SEI | .CLD | .SED | .CLV => "op_flag"
| .INC | .DEC => "op_incdec_mem"
| .INX | .INY | .DEX | .DEY => "op_incdec_reg"
| .JMP => "op_jmp"
| .JSR => "op_jsr"
| .LDA | .LDX | .LDY => "op_load"
| .NOP => "op_nop"
| .PLA => "op_pla"
| .PLP => "op_plp"
| .PHA | .PHP => "op_push"
| .ROL | .ROR => "op_rotate"
| .RTI => "op_rti"
| .RTS => "op_rts"
| .ASL | .LSR => "op_shift"
| .STA | .STX | .STY => "op_store"
| .TAX | .TAY | .TXA | .TYA | .TXS | .TSX => "op_transfer"

/-- Registers of the CPU (`Registers` plus the register part of `CpuState`
in `w65c02/state.rs`).  All fields are bytes except `pc` (a 16-bit word);
the `Default` impl gives `sp = 0xfa` and `p = 0b00100000`. -/
structure CpuState where
  ir : Nat := 0
  a : Nat := 0
  x : Nat := 0
  y : Nat := 0
  pc : Nat := 0
  sp : Nat := 0xfa
  p : Nat := 0b00100000
deriving DecidableEq, Repr

/-- Modelled from the spec: `bool_to_bit` lives in the missing `utils.rs`;
its uses in `state.rs` (single-bit flag setters over the §3 P bit layout)
force `bool_to_bit v n = (if v then 1 <<< n else 0)`. -/
def bool_to_bit (v : Bool) (n : Nat) : Nat :=
  if v then 1 <<< n else 0

def CpuState.set_a (s : CpuState) (v : Nat) : CpuState := { s with a := v }

def CpuState.set_x (s : CpuState) (v : Nat) : CpuState := { s with x := v }

def CpuState.set_y (s : CpuState) (v : Nat) : CpuState := { s with y := v }

def CpuState.set_sp (s : CpuState) (v : Nat) : CpuState := { s with sp := v }

def CpuState.set_ir (s : CpuState) (v : Nat) : CpuState := { s with ir := v }

/-- `CpuState::set_p`: writes P but forces bit 5 to 1. -/
def CpuState.set_p (s : CpuState) (v : Nat) : CpuState :=
  { s with p := v ||| 0b00100000 }

def CpuState.set_pc (s : CpuState) (v : Nat) : CpuState := { s with pc := v }

/-- `CpuState::inc_pc`: `pc.wrapping_add(1)` on a `u16`. -/
def CpuState.inc_pc (s : CpuState) : CpuState :=
  { s with pc := (s.pc + 1) % 65536 }

/-- `CpuState::set_pcl`: replace the low byte of PC. -/
def CpuState.set_pcl (s : CpuState) (v : Nat) : CpuState :=
  { s with pc := s.pc &&& 0xff00 ||| v }

/-- `CpuState::set_pch`: replace the high byte of PC. -/
def CpuState.set_pch (s : CpuState) (v : Nat) : CpuState :=
  { s with pc := s.pc &&& 0x00ff ||| v <<< 8 }

def CpuState.dec_sp (s : CpuState) : CpuState :=
  { s with sp := (s.sp + 255) % 256 }

def CpuState.inc_sp (s : CpuState) : CpuState :=
  { s with sp := (s.sp + 1) % 256 }

def CpuState.carry (s : CpuState) : Bool := decide (s.p &&& 1 > 0)

def CpuState.negative (s : CpuState) : Bool := decide (s.p &&& 0b10000000 > 0)

def CpuState.zero (s : CpuState) : Bool := decide (s.p &&& 0b00000010 > 0)

def CpuState.overflow (s : CpuState) : Bool := decide (s.p &&& 0b01000000 > 0)

def CpuState.set_negative (s : CpuState) (v : Bool) : CpuState :=
  { s with p := s.p &&& 0b01111111 ||| bool_to_bit v 7 }

def CpuState.set_zero (s : CpuState) (v : Bool) : CpuState :=
  { s with p := s.p &&& 0b11111101 ||| bool_to_bit v 1 }

def CpuState.set_carry (s : CpuState) (v : Bool) : CpuState :=
  { s with p := s.p &&& 0b11111110 ||| bool_to_bit v 0 }

def CpuState.set_overflow (s : CpuState) (v : Bool) : CpuState :=
  { s with p := s.p &&& 0b10111111 ||| bool_to_bit v 6 }

def CpuState.set_interrupt_disable (s : CpuState) (v : Bool) : CpuState :=
  { s with p := s.p &&& 0b11111011 ||| bool_to_bit v 2 }

def CpuState.set_decimal_mode (s : CpuState) (v : Bool) : CpuState :=
  { s with p := s.p &&& 0b11110111 ||| bool_to_bit v 3 }

def CpuState.set_break_command (s : CpuState) (v : Bool) : CpuState :=
  { s with p := s.p &&& 0b11101111 ||| bool_to_bit v 4 }

/-- Helper `neg` of `opcodes_impl.rs`: bit 7 of a byte. -/
def neg (val : Nat) : Bool := decide (val &&& 0x80 > 0)

/-- Helper `zero` of `opcodes_impl.rs`. -/
def zero (val : Nat) : Bool := decide (val = 0)

/-- Helper `overflow` of `opcodes_impl.rs` (the signed-overflow formula). -/
def overflow (in1 in2 result : Nat) : Bool :=
  decide ((in1 ^^^ result) &&& (in2 ^^^ result) &&& 0x80 > 0)

/-- One step of `set_flags`: dispatch on the flag character; an unknown
character is a panic (`none`). -/
def setFlagChar (c : Char) (v : Bool) (s : CpuState) : Option CpuState :=
  match c with
  | 'C' => some (s.set_carry v)
  | 'Z' => some (s.set_zero v)
  | 'I' => some (s.set_interrupt_disable v)
  | 'D' => some (s.set_decimal_mode v)
  | 'B' => some (s.set_break_command v)
  | 'V' => some (s.set_overflow v)
  | 'N' => some (s.set_negative v)
  | _ => none

def set_flags_go : List Char → List Bool → CpuState → Option CpuState
| [], [], s => some s
| c :: cs, v :: vs, s => (setFlagChar c v s).bind (set_flags_go cs vs)
| _, _, _ => none

/-- `set_flags` of `opcodes_impl.rs`: applies the listed flag values in
order; panics (`none`) on a length mismatch or unknown flag letter. -/
def set_flags (flags : String) (vals : List Bool) (s : CpuState) : Option CpuState :=
  if flags.length = vals.length then set_flags_go flags.toList vals s else none

/-- `set_nz_flags` of `opcodes_impl.rs`. -/
def set_nz_flags (val : Nat) (s : CpuState) : CpuState :=
  (s.set_negative (neg val)).set_zero (zero val)

/-- `u8` wrapping subtraction (`wrapping_sub` in the source). -/
def wrapping_sub8 (a b : Nat) : Nat := (a + 256 - b % 256) % 256

/-- `op_arithmetic` of `opcodes_impl.rs` (ADC / SBC). -/
def op_arithmetic (s : CpuState) (op : OperationDef) (val : Nat) :
    Option (CpuState × Nat) :=
  let a := s.a
  match op.mnemonic with
  | .ADC | .SBC =>
    let val2 := match op.mnemonic with
      | .SBC => val ^^^ 0xff
      | _ => val
    let sum := s.a + (cond s.carry 1 0) + val2
    let s1 := s.set_a (sum &&& 0xff)
    let res := s1.a
    (set_flags "NZCV"
        [neg res, zero res, decide (sum > 0xff), overflow a val2 res] s1).map
      (fun s2 => (s2, res))
  | _ => none

/-- `op_bit` of `opcodes_impl.rs`. -/
def op_bit (s : CpuState) (_op : OperationDef) (val : Nat) :
    Option (CpuState × Nat) :=
  (set_flags "NZV"
      [neg val, zero (val &&& s.a), decide (val &&& 0b01000000 > 0)] s).map
    (fun s2 => (s2, val))

/-- `op_branch` of `opcodes_impl.rs`: returns `branch.into()` (1 or 0). -/
def op_branch (s : CpuState) (op : OperationDef) (_val : Nat) :
    Option (CpuState × Nat) :=
  (match op.mnemonic with
   | .BCC => some (!s.carry)
   | .BCS => some s.carry
   | .BNE => some (!s.zero)
   | .BEQ => some s.zero
   | .BPL => some (!s.negative)
   | .BMI => some s.negative
   | .BVC => some (!s.overflow)
   | .BVS => some s.overflow
   | _ => none).map (fun b => (s, cond b 1 0))

/-- `op_compare` of `opcodes_impl.rs` (CMP / CPX / CPY). -/
def op_compare (s : CpuState) (op : OperationDef) (val : Nat) :
    Option (CpuState × Nat) :=
  (match op.mnemonic with
   | .CMP => some s.a
   | .CPX => some s.x
   | .CPY => some s.y
   | _ => none).bind (fun reg =>
    let diff := wrapping_sub8 reg val
    (set_flags "NZC" [neg diff, decide (reg = val), decide (reg ≥ val)] s).map
      (fun s2 => (s2, diff)))

/-- `op_bitwise` of `opcodes_impl.rs` (AND / ORA / EOR). -/
def op_bitwise (s : CpuState) (op : OperationDef) (val : Nat) :
    Option (CpuState × Nat) :=
  (match op.mnemonic with
   | .AND => some (s.set_a (s.a &&& val))
   | .ORA => some (s.set_a (s.a ||| val))
   | .EOR => some (s.set_a (s.a ^^^ val))
   | _ => none).map (fun (s1 : CpuState) => (set_nz_flags s1.a s1, s1.a))

/-- `op_flag` of `opcodes_impl.rs` (CLC / SEC / CLI / SEI / CLD / SED / CLV). -/
def op_flag (s : CpuState) (op : OperationDef) (_val : Nat) :
    Option (CpuState × Nat) :=
  (match op.mnemonic with
   | .CLC => some (s.set_carry false)
   | .SEC => some (s.set_carry true)
   | .CLI => some (s.set_interrupt_disable false)
   | .SEI => some (s.set_interrupt_disable true)
   | .CLD => some (s.set_decimal_mode false)
   | .SED => some (s.set_decimal_mode true)
   | .CLV => some (s.set_overflow false)
   | _ => none).map (fun s1 => (s1, 0))

/-- `op_load` of `opcodes_impl.rs` (LDA / LDX / LDY). -/
def op_load (s : CpuState) (op : OperationDef) (val : Nat) :
    Option (CpuState × Nat) :=
  (match op.mnemonic with
   | .LDA => some (s.set_a val)
   | .LDX => some (s.set_x val)
   | .LDY => some (s.set_y val)
   | _ => none).map (fun s1 => (set_nz_flags val s1, val))

/-- `op_store` of `opcodes_impl.rs` (STA / STX / STY): produces the value
to drive onto the bus, changing no register. -/
def op_store (s : CpuState) (op : OperationDef) (_val : Nat) :
    Option (CpuState × Nat) :=
  (match op.mnemonic with
   | .STA => some s.a
   | .STX => some s.x
   | .STY => some s.y
   | _ => none).map (fun v => (s, v))

/-- `op_transfer` of `opcodes_impl.rs`: performs the register transfer and,
for every mnemonic but TXS, calls `set_nz_flags(cpu.a())` — note that the
flag source is the accumulator, not the transferred value. -/
def op_transfer (s : CpuState) (op : OperationDef) (_val : Nat) :
    Option (CpuState × Nat) :=
  (match op.mnemonic with
   | .TAX => some (s.set_x s.a)
   | .TAY => some (s.set_y s.a)
   | .TXA => some (s.set_a s.x)
   | .TYA => some (s.set_a s.y)
   | .TXS => some (s.set_sp s.x)
   | .TSX => some (s.set_x s.sp)
   | _ => none).map (fun (s1 : CpuState) =>
    (if op.mnemonic ≠ Mnemonic.TXS then set_nz_flags s1.a s1 else s1, 0))

/-- `execute_operation` of `opcodes_impl.rs`: dispatches on the executor
tag string; every tag without an active arm (the commented-out ones
included) falls to `panic!("Unidentified function name ...")`, i.e.
`none`. -/
def execute_operation (s : CpuState) (op : OperationDef) (val : Nat) :
    Option (CpuState × Nat) :=
  match op.fn_name with
  | "op_arithmetic" => op_arithmetic s op val
  | "op_bit" => op_bit s op val
  | "op_bitwise" => op_bitwise s op val
  | "op_branch" => op_branch s op val
  | "op_compare" => op_compare s op val
  | "op_flag" => op_flag s op val
  | "op_load" => op_load s op val
  | "op_store" => op_store s op val
  | "op_transfer" => op_transfer s op val
  | _ => none

/-- A bus transaction observed on the data pins: the value read from or
driven to the given address. -/
inductive BusEv
| read (addr val : Nat)
| write (addr val : Nat)
deriving DecidableEq, Repr

/-- The CPU-side pin state the steppers manipulate: the address bus, the
direction of the data port, and SYNC. -/
structure StepSt where
  cpu : CpuState
  addrBus : Nat := 0
  dataDir : PinDirection := .Input
  sync : Bool := false
deriving DecidableEq, Repr

/-- An 8-bit read of the data port (`cpu.pins.data.read()`) while memory
drives the byte at the given address; the port is 8 pins wide, so the
value is reduced mod 256. -/
def busByte (mem : Nat → Nat) (addr : Nat) : Nat := mem addr % 256

/-- `u16::from_le_bytes([lo, hi])`. -/
def u16_from_le (lo hi : Nat) : Nat := lo + 256 * hi

/-- `request_read_from_pc` of `steppers.rs`. -/
def request_read_from_pc (st : StepSt) : StepSt :=
  { st with dataDir := .Input, addrBus := st.cpu.pc }

/-- `request_read_from_addr` of `steppers.rs`. -/
def request_read_from_addr (st : StepSt) (lo hi : Nat) : StepSt :=
  { st with dataDir := .Input, addrBus := u16_from_le lo hi }

/-- `request_write_to_addr` of `steppers.rs`. -/
def request_write_to_addr (st : StepSt) (lo hi : Nat) : StepSt :=
  { st with dataDir := .Output, addrBus := u16_from_le lo hi }

/-- `request_opcode` of `steppers.rs`. -/
def request_opcode (st : StepSt) : StepSt :=
  { st with sync := true, dataDir := .Input, addrBus := st.cpu.pc }

/-- The `read_opcode` stepper of `steppers.rs`: request the opcode at PC,
suspend, latch it into IR, increment PC, clear SYNC, suspend.  The result
carries the final state, the bus trace, and the number of suspension
points (half-cycles). -/
def read_opcode (mem : Nat → Nat) (st : StepSt) : StepSt × List BusEv × Nat :=
  let st1 := request_opcode st
  let opcode := busByte mem st1.addrBus
  let st2 := { st1 with cpu := (st1.cpu.inc_pc).set_ir opcode, sync := false }
  (st2, [.read st1.addrBus opcode], 2)

/-- The `init_stepper` of `steppers.rs`: fetch the byte at $FFFC into the
low byte of PC, then the byte at $FFFD into the high byte of PC.  Note
that nothing in `w65c02.rs` ever invokes this stepper. -/
def init_stepper (mem : Nat → Nat) (st : StepSt) : StepSt × List BusEv × Nat :=
  let st1 := request_read_from_addr st 0xfc 0xff
  let lo := busByte mem st1.addrBus
  let st2 := { st1 with cpu := st1.cpu.set_pcl lo }
  let st3 := request_read_from_addr st2 0xfd 0xff
  let hi := busByte mem st3.addrBus
  let st4 := { st3 with cpu := st3.cpu.set_pch hi }
  (st4, [.read st1.addrBus lo, .read st3.addrBus hi], 5)

/-- The `jmp_stepper` of `steppers.rs`: fetch the two address bytes; for
the absolute form set PC to them; for the indirect form read the target
low byte at the pointer and the target high byte at the pointer with its
low byte incremented mod 256 (same page — the 6502 page-boundary bug). -/
def jmp_stepper (op : OperationDef) (mem : Nat → Nat) (st : StepSt) :
    StepSt × List BusEv × Nat :=
  let indirect : Bool := decide (op.address_mode = AddressMode.Indirect)
  let st1 := request_read_from_pc st
  let lo := busByte mem st1.addrBus
  let st2 := { st1 with cpu := st1.cpu.inc_pc }
  let st3 := request_read_from_pc st2
  let hi := busByte mem st3.addrBus
  let addr := u16_from_le lo hi
  let st4 := if indirect then { st3 with cpu := st3.cpu.inc_pc }
             else { st3 with cpu := st3.cpu.set_pc addr }
  if indirect then
    let st5 := request_read_from_addr st4 lo hi
    let flo := busByte mem st5.addrBus
    let st6 := request_read_from_addr st5 ((lo + 1) % 256) hi
    let fhi := busByte mem st6.addrBus
    let st7 := { st6 with cpu := st6.cpu.set_pc (u16_from_le flo fhi) }
    (st7, [.read st1.addrBus lo, .read st3.addrBus hi,
           .read st5.addrBus flo, .read st6.addrBus fhi], 8)
  else
    (st4, [.read st1.addrBus lo, .read st3.addrBus hi], 4)

/-- The `push_stepper` of `steppers.rs` (PHA / PHP): dummy read at PC,
then `execute_operation` produces the value to push; a panic there
(`none`) aborts the instruction before the stack write. -/
def push_stepper (op : OperationDef) (mem : Nat → Nat) (st : StepSt) :
    List BusEv × Nat × Option StepSt :=
  let st1 := request_read_from_pc st
  let b := busByte mem st1.addrBus
  match execute_operation st1.cpu op 0 with
  | none => ([.read st1.addrBus b], 2, none)
  | some (cpu2, val) =>
    let st2 := request_write_to_addr { st1 with cpu := cpu2 } cpu2.sp 0x01
    let st3 := { st2 with cpu := st2.cpu.dec_sp }
    ([.read st1.addrBus b, .write st2.addrBus val], 4, some st3)

/-- The `pull_stepper` of `steppers.rs` (PLA / PLP): dummy read at PC,
increment SP, read the stacked byte at $0100 + SP, then hand it to
`execute_operation`; a panic there (`none`) aborts the instruction. -/
def pull_stepper (op : OperationDef) (mem : Nat → Nat) (st : StepSt) :
    List BusEv × Nat × Option StepSt :=
  let st1 := request_read_from_pc st
  let b := busByte mem st1.addrBus
  let st2 := { st1 with cpu := st1.cpu.inc_sp }
  let st3 := request_read_from_addr st2 st2.cpu.sp 0x01
  let v := busByte mem st3.addrBus
  match execute_operation st3.cpu op v with
  | none => ([.read st1.addrBus b, .read st3.addrBus v], 4, none)
  | some (cpu2, _) =>
    ([.read st1.addrBus b, .read st3.addrBus v], 5, some { st3 with cpu := cpu2 })

/-- The `decode_address` macro of `steppers.rs`: fetches the operand
byte(s) and computes the effective address `(lo, hi)`, issuing the extra
page-cross read where the real 6502 does.  Returns the address bytes, the
state after decoding, the bus trace, and the suspension count; `none` is
the `panic!` for a non-memory addressing mode. -/
def decode_address (op : OperationDef) (mem : Nat → Nat) (st : StepSt) :
    Option (Nat × Nat × StepSt × List BusEv × Nat) :=
  let st1 := request_read_from_pc st
  let lo := busByte mem st1.addrBus
  let st2 := { st1 with cpu := st1.cpu.inc_pc }
  let ev0 : List BusEv := [.read st1.addrBus lo]
  match op.address_mode with
  | .ZeroPage => some (lo, 0, st2, ev0, 2)
  | .ZeroPageX => some ((lo + st2.cpu.x) % 256, 0, st2, ev0, 2)
  | .ZeroPageY => some ((lo + st2.cpu.y) % 256, 0, st2, ev0, 2)
  | .Absolute =>
    let st3 := request_read_from_pc st2
    let hi := busByte mem st3.addrBus
    let st4 := { st3 with cpu := st3.cpu.inc_pc }
    some (lo, hi, st4, ev0 ++ [.read st3.addrBus hi], 4)
  | .AbsoluteX | .AbsoluteY =>
    let st3 := request_read_from_pc st2
    let hi := busByte mem st3.addrBus
    let st4 := { st3 with cpu := st3.cpu.inc_pc }
    let reg := if op.address_mode = AddressMode.AbsoluteX then st4.cpu.x
               else st4.cpu.y
    let addr := (u16_from_le lo hi + reg) % 65536
    let rlo := addr % 256
    let rhi := addr / 256
    if rhi ≠ hi then
      let st5 := request_read_from_addr st4 rlo hi
      let d := busByte mem st5.addrBus
      some (rlo, rhi, st5, ev0 ++ [.read st3.addrBus hi, .read st5.addrBus d], 6)
    else
      some (rlo, rhi, st4, ev0 ++ [.read st3.addrBus hi], 4)
  | .IndirectX =>
    let ptr := (lo + st2.cpu.x) % 256
    let st3 := request_read_from_addr st2 ptr 0
    let alo := busByte mem st3.addrBus
    let st4 := request_read_from_addr st3 ((ptr + 1) % 256) 0
    let ahi := busByte mem st4.addrBus
    some (alo, ahi, st4, ev0 ++ [.read st3.addrBus alo, .read st4.addrBus ahi], 6)
  | .IndirectY =>
    let st3 := request_read_from_addr st2 lo 0
    let alo := busByte mem st3.addrBus
    let st4 := request_read_from_addr st3 ((lo + 1) % 256) 0
    let ahi := busByte mem st4.addrBus
    let addr := (u16_from_le alo ahi + st4.cpu.y) % 65536
    let rlo := addr % 256
    let rhi := addr / 256
    if rhi ≠ ahi then
      let st5 := request_read_from_addr st4 rlo ahi
      let d := busByte mem st5.addrBus
      some (rlo, rhi, st5,
            ev0 ++ [.read st3.addrBus alo, .read st4.addrBus ahi,
                    .read st5.addrBus d], 8)
    else
      some (rlo, rhi, st4,
            ev0 ++ [.read st3.addrBus alo, .read st4.addrBus ahi], 6)
  | _ => none

/-- The `rmw_stepper` of `steppers.rs` (ASL/LSR/ROL/ROR/INC/DEC, memory
forms): decode the address, read the value, write the same value back
(bus-visible), run `execute_operation` on it, and write the new value.  A
panic inside `execute_operation` (`none`) aborts after the redundant
write-back, before the final write. -/
def rmw_stepper (op : OperationDef) (mem : Nat → Nat) (st : StepSt) :
    List BusEv × Nat × Option StepSt :=
  match decode_address op mem st with
  | none => ([], 0, none)
  | some (lo, hi, st1, evs, n) =>
    let st2 := request_read_from_addr st1 lo hi
    let v := busByte mem st2.addrBus
    let st3 := request_write_to_addr st2 lo hi
    match execute_operation st3.cpu op v with
    | none => (evs ++ [.read st2.addrBus v, .write st3.addrBus v], n + 3, none)
    | some (cpu2, v2) =>
      let st4 := request_write_to_addr { st3 with cpu := cpu2 } lo hi
      (evs ++ [.read st2.addrBus v, .write st3.addrBus v, .write st4.addrBus v2],
       n + 6, some st4)

/-- The 32 KiB capacity of the HM62256B byte array (`[u8; 1 << 15]`). -/
def MEM_SIZE : Nat := 1 <<< 15

/-- Pointwise update of a byte array modelled as a function. -/
def upd (m : Nat → Nat) (a v : Nat) : Nat → Nat :=
  fun j => if j = a then v else m j

/-- The memory array of `HM62256BLogic`, modelled as a function from
addresses to bytes (cells at and beyond `MEM_SIZE` do not exist; every
access checks the bound and `none` is the Rust index panic). -/
abbrev HM62256BLogic := Nat → Nat

/-- `HM62256BLogic::read_byte`: `self.data[addr]`, panicking out of
bounds. -/
def HM62256BLogic.read_byte (m : HM62256BLogic) (addr : Nat) : Option Nat :=
  if addr < MEM_SIZE then some (m addr) else none

/-- `HM62256BLogic::write_byte`: `self.data[addr] = value`, panicking out
of bounds. -/
def HM62256BLogic.write_byte (m : HM62256BLogic) (addr v : Nat) :
    Option HM62256BLogic :=
  if addr < MEM_SIZE then some (upd m addr v) else none

/-- The loop body of `HM62256BLogic::load`: write the bytes sequentially
starting at `i`; the first index at or beyond `MEM_SIZE` panics
(`none`). -/
def load_go (m : HM62256BLogic) (i : Nat) : List Nat → Option HM62256BLogic
| [] => some m
| b :: bs => if i < MEM_SIZE then load_go (upd m i b) (i + 1) bs else none

/-- `HM62256BLogic::load`: `for i in a..(a + data.len()) { self.data[i] =
data[i - a] }`. -/
def HM62256BLogic.load (m : HM62256BLogic) (addr : Nat) (data : List Nat) :
    Option HM62256BLogic :=
  load_go m addr data

/-- Control-pin state of the HM62256B RAM chip together with the current
direction of its data port D. -/
structure HM62256BPins where
  cs : Bool := true
  we : Bool := true
  oe : Bool := true
  dDir : PinDirection := .Output
deriving DecidableEq, Repr

/-- The `WE` arm of `HM62256B::on_pin_state_change`:
`self.set_data_direction(val)`. -/
def hm_on_we_change (pins : HM62256BPins) (val : Bool) : HM62256BPins :=
  { pins with we := val, dDir := PinDirection.fromBool val }

/-- The `OE` arm of `HM62256B::on_pin_state_change`:
`self.set_data_direction(!val || self.pins["WE"].high())`. -/
def hm_on_oe_change (pins : HM62256BPins) (val : Bool) : HM62256BPins :=
  { pins with oe := val, dDir := PinDirection.fromBool (!val || pins.we) }

/-- `W65C02::init` of `w65c02.rs`: the wrapper's power-up initialisation
sets PC directly to $0200 (`reg.pc = 0x200`); it runs no stepper and
performs no bus access. -/
def w65c02_init (s : CpuState) : CpuState := { s with pc := 0x200 }

/-- Observable wrapper state for the cycle counter: the PHI1O / PHI2O
echo pins and the `u64` cycle counter of `W65C02Logic`. -/
structure W65C02Wrap where
  phi1o : Bool := false
  phi2o : Bool := false
  cycles : Nat := 0
deriving DecidableEq, Repr

/-- `W65C02Logic::advance_cycles`: `cycles.wrapping_add(1)` on a `u64`. -/
def advance_cycles (c : Nat) : Nat := (c + 1) % (2 ^ 64)

/-- The cycle-counter effect of `W65C02Logic::tick`: whichever stepper is
selected and resumed, the tail of `tick` unconditionally calls
`advance_cycles` (stepper bookkeeping does not touch the counter and is
elided here). -/
def tick (w : W65C02Wrap) : W65C02Wrap :=
  { w with cycles := advance_cycles w.cycles }

/-- The `PHI2` arm of `W65C02::on_pin_state_change`: echo `PHI1O = !val`
and `PHI2O = val`, then `tick` — invoked on every PHI2 level change, both
rising and falling. -/
def on_phi2_change (w : W65C02Wrap) (val : Bool) : W65C02Wrap :=
  tick { w with phi1o := !val, phi2o := val }

/-- `n` full PHI2 clock cycles: each is a rising edge followed by a
falling edge. -/
def full_cycles : Nat → W65C02Wrap → W65C02Wrap
| 0, w => w
| n + 1, w => full_cycles n (on_phi2_change (on_phi2_change w true) false)

/-- The power-on register file (`Registers::default()` in `state.rs`). -/
def CpuState.default : CpuState := {}

lemma testBit_bool_to_bit (v : Bool) (n i : Nat) :
    (bool_to_bit v n).testBit i = (v && decide (n = i)) := by
  cases v <;> simp [bool_to_bit, Nat.one_shiftLeft, Nat.testBit_two_pow]

lemma and_255_eq_mod (x : Nat) : x &&& 255 = x % 256 := by
  have h : (255 : Nat) = 2 ^ 8 - 1 := rfl
  have h2 : (256 : Nat) = 2 ^ 8 := rfl
  rw [h, h2]
  apply Nat.eq_of_testBit_eq
  intro i
  rw [Nat.testBit_and, Nat.testBit_mod_two_pow, Nat.testBit_two_pow_sub_one]
  exact Bool.and_comm _ _

lemma neg_eq_testBit7 (x : Nat) : neg x = x.testBit 7 := by
  unfold neg
  rw [show (0x80 : Nat) = 2 ^ 7 from rfl, Nat.and_two_pow]
  cases h : x.testBit 7 <;> simp [h]

lemma xor_255_of_lt (v : Nat) (hv : v < 256) : v ^^^ 255 = 255 - v := by
  revert hv
  revert v
  decide

lemma set_flags_nzcv (s : CpuState) (n z c v : Bool) :
    set_flags "NZCV" [n, z, c, v] s =
      some ((((s.set_negative n).set_zero z).set_carry c).set_overflow v) := rfl

lemma nzcv_chain_a (s : CpuState) (n z c v : Bool) :
    ((((s.set_negative n).set_zero z).set_carry c).set_overflow v).a = s.a := rfl

lemma nzcv_chain_bit7 (s : CpuState) (n z c v : Bool) :
    ((((s.set_negative n).set_zero z).set_carry c).set_overflow v).p.testBit 7 = n := by
  simp only [CpuState.set_negative, CpuState.set_zero, CpuState.set_carry,
    CpuState.set_overflow, Nat.testBit_or, Nat.testBit_and, testBit_bool_to_bit]
  cases n <;> cases z <;> cases c <;> cases v <;> simp [Nat.testBit_to_div_mod]

lemma nzcv_chain_bit1 (s : CpuState) (n z c v : Bool) :
    ((((s.set_negative n).set_zero z).set_carry c).set_overflow v).p.testBit 1 = z := by
  simp only [CpuState.set_negative, CpuState.set_zero, CpuState.set_carry,
    CpuState.set_overflow, Nat.testBit_or, Nat.testBit_and, testBit_bool_to_bit]
  cases n <;> cases z <;> cases c <;> cases v <;> simp [Nat.testBit_to_div_mod]

lemma nzcv_chain_bit0 (s : CpuState) (n z c v : Bool) :
    ((((s.set_negative n).set_zero z).set_carry c).set_overflow v).p.testBit 0 = c := by
  simp only [CpuState.set_negative, CpuState.set_zero, CpuState.set_carry,
    CpuState.set_overflow, Nat.testBit_or, Nat.testBit_and, testBit_bool_to_bit]
  cases n <;> cases z <;> cases c <;> cases v <;> simp [Nat.testBit_to_div_mod]

lemma nzcv_chain_bit6 (s : CpuState) (n z c v : Bool) :
    ((((s.set_negative n).set_zero z).set_carry c).set_overflow v).p.testBit 6 = v := by
  simp only [CpuState.set_negative, CpuState.set_zero, CpuState.set_carry,
    CpuState.set_overflow, Nat.testBit_or, Nat.testBit_and, testBit_bool_to_bit]
  cases n <;> cases z <;> cases c <;> cases v <;> simp [Nat.testBit_to_div_mod]

/-- Spec-side operand of §4.6 "Arithmetic": the operand itself for ADC,
its byte complement for SBC. -/
def spec_arith_operand (m : Mnemonic) (v : Nat) : Nat :=
  if m = Mnemonic.ADC then v else 255 - v

/-- The state/value pair that `op_arithmetic` produces, written out as the
flag-setter chain it performs. -/
def arith_result (s : CpuState) (val2 : Nat) : CpuState × Nat :=
  let sum := s.a + cond s.carry 1 0 + val2
  let res := sum &&& 0xff
  (((((s.set_a res).set_negative (neg res)).set_zero (zero res)).set_carry
      (decide (sum > 0xff))).set_overflow (overflow s.a val2 res), res)

lemma op_arithmetic_adc (s : CpuState) (am : AddressMode) (fn : String) (v : Nat) :
    op_arithmetic s ⟨Mnemonic.ADC, am, fn⟩ v = some (arith_result s v) := rfl

lemma op_arithmetic_sbc (s : CpuState) (am : AddressMode) (fn : String) (v : Nat) :
    op_arithmetic s ⟨Mnemonic.SBC, am, fn⟩ v = some (arith_result s (v ^^^ 0xff)) := rfl

lemma arith_result_spec (s : CpuState) (val2 : Nat) :
    (arith_result s val2).2 = (s.a + val2 + cond s.carry 1 0) % 256 ∧
    (arith_result s val2).1.a = (s.a + val2 + cond s.carry 1 0) % 256 ∧
    (arith_result s val2).1.p.testBit 0 =
      decide (s.a + val2 + cond s.carry 1 0 > 0xff) ∧
    (arith_result s val2).1.p.testBit 1 =
      decide ((arith_result s val2).1.a = 0) ∧
    (arith_result s val2).1.p.testBit 7 = (arith_result s val2).1.a.testBit 7 ∧
    (arith_result s val2).1.p.testBit 6 =
      decide ((s.a ^^^ (arith_result s val2).1.a) &&&
              (val2 ^^^ (arith_result s val2).1.a) &&& 0x80 ≠ 0) := by
  have hsum : s.a + cond s.carry 1 0 + val2 = s.a + val2 + cond s.carry 1 0 := by
    ring
  unfold arith_result
  simp only [hsum]
  refine ⟨?_, ?_, ?_, ?_, ?_, ?_⟩
  · exact and_255_eq_mod _
  · rw [nzcv_chain_a]
    exact and_255_eq_mod _
  · rw [nzcv_chain_bit0]
  · rw [nzcv_chain_bit1, nzcv_chain_a]
    unfold zero
    rfl
  · rw [nzcv_chain_bit7, nzcv_chain_a]
    exact neg_eq_testBit7 _
  · rw [nzcv_chain_bit6, nzcv_chain_a]
    simp [overflow, CpuState.set_a, Nat.pos_iff_ne_zero]

/-- C1: for every ADC or SBC execution with accumulator `a`, operand `v`
(complemented for SBC) and carry flag C, `op_arithmetic` computes the
16-bit sum `a + operand_or_complement + C`, stores its low byte into A,
and sets C = (sum > 0xFF), Z = (A = 0), N = bit 7 of A, and
V = ((a ^ res) & (op ^ res) & 0x80) ≠ 0; in particular ADC of 0x7F and
0x01 with C = 0 yields A = 0x80, N = 1, V = 1, Z = 0, C = 0. -/
theorem c1_arithmetic_flags :
    (∀ (op : OperationDef) (s : CpuState) (v : Nat),
      (op.mnemonic = Mnemonic.ADC ∨ op.mnemonic = Mnemonic.SBC) →
      v < 256 →
      ∃ s2 : CpuState,
        op_arithmetic s op v =
          some (s2, (s.a + spec_arith_operand op.mnemonic v + cond s.carry 1 0) % 256) ∧
        s2.a = (s.a + spec_arith_operand op.mnemonic v + cond s.carry 1 0) % 256 ∧
        s2.p.testBit 0 =
          decide (s.a + spec_arith_operand op.mnemonic v + cond s.carry 1 0 > 0xff) ∧
        s2.p.testBit 1 = decide (s2.a = 0) ∧
        s2.p.testBit 7 = s2.a.testBit 7 ∧
        s2.p.testBit 6 =
          decide ((s.a ^^^ s2.a) &&& (spec_arith_operand op.mnemonic v ^^^ s2.a) &&&
                  0x80 ≠ 0)) ∧
    (∃ s2 : CpuState,
      op_arithmetic { CpuState.default with a := 0x7f }
          ⟨Mnemonic.ADC, AddressMode.Immediate, "op_arithmetic"⟩ 0x01 =
        some (s2, 0x80) ∧
      s2.a = 0x80 ∧ s2.p.testBit 7 = true ∧ s2.p.testBit 6 = true ∧
      s2.p.testBit 1 = false ∧ s2.p.testBit 0 = false) := by
  constructor
  · intro op s v hm hv
    rcases op with ⟨m, am, fn⟩
    rcases hm with h | h <;> subst h
    · obtain ⟨h1, h2, h3, h4, h5, h6⟩ := arith_result_spec s v
      refine ⟨(arith_result s v).1, ?_, h2, h3, h4, h5, h6⟩
      rw [op_arithmetic_adc]
      exact congrArg some (Prod.ext rfl h1)
    · obtain ⟨h1, h2, h3, h4, h5, h6⟩ := arith_result_spec s (255 - v)
      have hxor : v ^^^ 0xff = 255 - v := xor_255_of_lt v hv
      refine ⟨(arith_result s (255 - v)).1, ?_, h2, h3, h4, h5, h6⟩
      rw [op_arithmetic_sbc, hxor]
      exact congrArg some (Prod.ext rfl h1)
  · exact ⟨⟨0, 0x80, 0, 0, 0, 0xfa, 224⟩, by decide⟩

/-- C1 witness: the general ADC/SBC law applied to SBC of 0x00 and 0x01
with C = 0, giving A = 0xFE with C = 0 and V = 0. -/
theorem c1_arithmetic_flags_witness :
    (1 : Nat) < 256 ∧
    ∃ s2 : CpuState,
      op_arithmetic CpuState.default
          ⟨Mnemonic.SBC, AddressMode.Immediate, "op_arithmetic"⟩ 1 =
        some (s2, (CpuState.default.a + spec_arith_operand Mnemonic.SBC 1 +
                   cond CpuState.default.carry 1 0) % 256) ∧
      s2.a = (CpuState.default.a + spec_arith_operand Mnemonic.SBC 1 +
              cond CpuState.default.carry 1 0) % 256 ∧
      s2.p.testBit 0 =
        decide (CpuState.default.a + spec_arith_operand Mnemonic.SBC 1 +
                cond CpuState.default.carry 1 0 > 0xff) ∧
      s2.p.testBit 1 = decide (s2.a = 0) ∧
      s2.p.testBit 7 = s2.a.testBit 7 ∧
      s2.p.testBit 6 =
        decide ((CpuState.default.a ^^^ s2.a) &&&
                (spec_arith_operand Mnemonic.SBC 1 ^^^ s2.a) &&& 0x80 ≠ 0) :=
  ⟨by decide,
   c1_arithmetic_flags.1 ⟨Mnemonic.SBC, AddressMode.Immediate, "op_arithmetic"⟩
     CpuState.default 1 (Or.inr rfl) (by decide)⟩

/-- C9: bit 5 of P is 1 in the power-on state, `set_p` forces it to 1 for
every written value, and each single-flag setter leaves it unchanged. -/
theorem c9_p_bit5_invariant :
    CpuState.default.p.testBit 5 = true ∧
    (∀ (s : CpuState) (v : Nat), (s.set_p v).p.testBit 5 = true) ∧
    (∀ (s : CpuState) (v : Bool),
      (s.set_negative v).p.testBit 5 = s.p.testBit 5 ∧
      (s.set_zero v).p.testBit 5 = s.p.testBit 5 ∧
      (s.set_carry v).p.testBit 5 = s.p.testBit 5 ∧
      (s.set_overflow v).p.testBit 5 = s.p.testBit 5 ∧
      (s.set_interrupt_disable v).p.testBit 5 = s.p.testBit 5 ∧
      (s.set_decimal_mode v).p.testBit 5 = s.p.testBit 5 ∧
      (s.set_break_command v).p.testBit 5 = s.p.testBit 5) := by
  refine ⟨rfl, ?_, ?_⟩
  · intro s v
    simp only [CpuState.set_p, Nat.testBit_or]
    simp [Nat.testBit_to_div_mod]
  · intro s v
    refine ⟨?_, ?_, ?_, ?_, ?_, ?_, ?_⟩ <;>
      simp only [CpuState.set_negative, CpuState.set_zero, CpuState.set_carry,
        CpuState.set_overflow, CpuState.set_interrupt_disable,
        CpuState.set_decimal_mode, CpuState.set_break_command,
        Nat.testBit_or, Nat.testBit_and, testBit_bool_to_bit] <;>
      cases v <;> simp [Nat.testBit_to_div_mod]

lemma full_cycles_cycles (n : Nat) :
    ∀ w : W65C02Wrap, w.cycles < 2 ^ 64 →
      (full_cycles n w).cycles = (w.cycles + 2 * n) % 2 ^ 64 := by
  induction n with
  | zero =>
    intro w hw
    show w.cycles = (w.cycles + 2 * 0) % 2 ^ 64
    rw [Nat.mul_zero, Nat.add_zero, Nat.mod_eq_of_lt hw]
  | succ k ih =>
    intro w hw
    have h2 : (on_phi2_change (on_phi2_change w true) false).cycles =
        (w.cycles + 2) % 2 ^ 64 := by
      simp only [on_phi2_change, tick, advance_cycles, Nat.mod_add_mod]
    rw [full_cycles, ih _ (by rw [h2]; exact Nat.mod_lt _ (by norm_num)), h2,
      Nat.mod_add_mod]
    ring_nf

/-- C8 counterexample: starting from a zero counter, one full PHI2 cycle
(a rising edge followed by a falling edge) leaves the cycle counter at 2,
not at 1 as the claim requires. -/
theorem c8_counterexample :
    (on_phi2_change (on_phi2_change ({} : W65C02Wrap) true) false).cycles = 2 ∧
    (2 : Nat) ≠ 1 := by
  constructor
  · rfl
  · decide

/-- C8 (amended): the wrapper increments its cycle counter once on every
PHI2 edge — falling edges included — immediately after the stepper
resumes, so after n full PHI2 cycles the counter reads 2n mod 2^64,
not n. -/
theorem c8_cycle_counter_amended :
    (∀ (w : W65C02Wrap) (val : Bool),
      (on_phi2_change w val).cycles = (w.cycles + 1) % 2 ^ 64) ∧
    (∀ n : Nat, (full_cycles n ({} : W65C02Wrap)).cycles = 2 * n % 2 ^ 64) := by
  constructor
  · intro w val
    rfl
  · intro n
    have := full_cycles_cycles n ({} : W65C02Wrap) (by norm_num)
    simpa using this

lemma and_ff00_or_and_ff (x lo : Nat) (hlo : lo < 256) :
    (x &&& 0xff00 ||| lo) &&& 0xff = lo := by
  apply Nat.eq_of_testBit_eq
  intro i
  rw [Nat.testBit_and, Nat.testBit_or, Nat.testBit_and]
  by_cases h8 : i < 8
  · have hff : Nat.testBit 0xff i = true := by
      rw [show (0xff : Nat) = 2 ^ 8 - 1 from rfl, Nat.testBit_two_pow_sub_one]
      simpa using h8
    have h00 : Nat.testBit 0xff00 i = false := by
      rw [show (0xff00 : Nat) = 255 <<< 8 from rfl, Nat.testBit_shiftLeft]
      simp [show ¬ (8 ≤ i) from by omega]
    simp [hff, h00]
  · have hff : Nat.testBit 0xff i = false := by
      rw [show (0xff : Nat) = 2 ^ 8 - 1 from rfl, Nat.testBit_two_pow_sub_one]
      simp [h8]
    have hlo2 : lo.testBit i = false := by
      apply Nat.testBit_lt_two_pow
      calc lo < 256 := hlo
        _ = 2 ^ 8 := rfl
        _ ≤ 2 ^ i := Nat.pow_le_pow_right (by norm_num) (by omega)
    simp [hff, hlo2]

lemma lor_shift_mod (lo hi : Nat) (hlo : lo < 256) :
    (lo ||| hi <<< 8) % 256 = lo := by
  rw [show (256 : Nat) = 2 ^ 8 from rfl]
  apply Nat.eq_of_testBit_eq
  intro i
  rw [Nat.testBit_mod_two_pow, Nat.testBit_or, Nat.testBit_shiftLeft]
  by_cases h8 : i < 8
  · simp [h8, show ¬ (8 ≤ i) from by omega]
  · have hlo2 : lo.testBit i = false := by
      apply Nat.testBit_lt_two_pow
      calc lo < 256 := hlo
        _ = 2 ^ 8 := rfl
        _ ≤ 2 ^ i := Nat.pow_le_pow_right (by norm_num) (by omega)
    simp [h8, hlo2]

lemma lor_shift_div (lo hi : Nat) (hlo : lo < 256) :
    (lo ||| hi <<< 8) / 256 = hi := by
  have h : (lo ||| hi <<< 8) / 256 = (lo ||| hi <<< 8) >>> 8 :=
    (Nat.shiftRight_eq_div_pow _ 8).symm
  rw [h]
  apply Nat.eq_of_testBit_eq
  intro i
  rw [Nat.testBit_shiftRight, Nat.testBit_or, Nat.testBit_shiftLeft]
  have hlo2 : lo.testBit (8 + i) = false := by
    apply Nat.testBit_lt_two_pow
    calc lo < 256 := hlo
      _ = 2 ^ 8 := rfl
      _ ≤ 2 ^ (8 + i) := Nat.pow_le_pow_right (by norm_num) (by omega)
  simp [hlo2]

/-- C2 counterexample: with the reset vector at $FFFC/$FFFD holding
0x1234, the wrapper's power-up `init` leaves PC at 0x200 — execution
does not start at the reset vector stored in memory. -/
theorem c2_counterexample :
    (w65c02_init CpuState.default).pc = 0x200 ∧
    busByte (fun a => if a = 0xfffc then 0x34 else if a = 0xfffd then 0x12 else 0)
        0xfffc +
      256 * busByte (fun a => if a = 0xfffc then 0x34 else if a = 0xfffd then 0x12 else 0)
        0xfffd = 0x1234 ∧
    (0x200 : Nat) ≠ 0x1234 := by
  refine ⟨rfl, by norm_num [busByte], by norm_num⟩

/-- C2 (amended): the `init_stepper` function reads the byte at $FFFC
into the low byte of PC and the byte at $FFFD into the high byte of PC,
but the CPU wrapper never runs it: on power-up `W65C02::init` sets PC
directly to $0200, so execution starts at $0200 regardless of the reset
vector. -/
theorem c2_reset_amended :
    (∀ (mem : Nat → Nat) (st : StepSt),
      (init_stepper mem st).2.1 =
        [BusEv.read 0xfffc (busByte mem 0xfffc),
         BusEv.read 0xfffd (busByte mem 0xfffd)] ∧
      (init_stepper mem st).1.cpu.pc % 256 = busByte mem 0xfffc ∧
      (init_stepper mem st).1.cpu.pc / 256 = busByte mem 0xfffd) ∧
    (∀ s : CpuState, (w65c02_init s).pc = 0x200) := by
  constructor
  · intro mem st
    have hlo : busByte mem 0xfffc < 256 := Nat.mod_lt _ (by norm_num)
    refine ⟨rfl, ?_, ?_⟩
    · show ((st.cpu.pc &&& 0xff00 ||| busByte mem 0xfffc) &&& 0xff |||
            busByte mem 0xfffd <<< 8) % 256 = busByte mem 0xfffc
      rw [and_ff00_or_and_ff _ _ hlo, lor_shift_mod _ _ hlo]
    · show ((st.cpu.pc &&& 0xff00 ||| busByte mem 0xfffc) &&& 0xff |||
            busByte mem 0xfffd <<< 8) / 256 = busByte mem 0xfffd
      rw [and_ff00_or_and_ff _ _ hlo, lor_shift_div _ _ hlo]
  · intro s
    rfl

lemma load_go_spec (data : List Nat) :
    ∀ (m : HM62256BLogic) (addr : Nat),
      addr + data.length ≤ MEM_SIZE →
      ∃ m2, load_go m addr data = some m2 ∧
        (∀ j, j < addr → m2 j = m j) ∧
        (∀ i (h : i < data.length), m2 (addr + i) = data.get ⟨i, h⟩) := by
  induction data with
  | nil =>
    intro m addr _
    exact ⟨m, rfl, fun j _ => rfl, fun i h => absurd h (by simp)⟩
  | cons b bs ih =>
    intro m addr hlen
    have haddr : addr < MEM_SIZE := by
      simp only [List.length_cons] at hlen
      omega
    obtain ⟨m2, hload, hframe, hread⟩ := ih (upd m addr b) (addr + 1) (by
      simp only [List.length_cons] at hlen
      omega)
    refine ⟨m2, ?_, ?_, ?_⟩
    · simp [load_go, haddr, hload]
    · intro j hj
      rw [hframe j (by omega)]
      simp [upd, Nat.ne_of_lt hj]
    · intro i h
      cases i with
      | zero =>
        rw [show addr + 0 = addr from rfl, hframe addr (by omega)]
        simp [upd]
      | succ k =>
        have hk := hread k (by simpa using Nat.lt_of_succ_lt_succ h)
        rw [show addr + (k + 1) = addr + 1 + k from by omega, hk]
        rfl

/-- C10: for `addr + data.len() ≤ 32768`, `HM62256BLogic::load` copies
`data[i]` into cell `addr + i` so that `read_byte (addr + i)` returns
`data[i]`; and a load that runs past the end of the 32 KiB array panics
with an out-of-bounds index (here: loading 16 bytes at 32760) — it
neither wraps around nor silently drops the excess. -/
theorem c10_load_bounds :
    (∀ (m : HM62256BLogic) (addr : Nat) (data : List Nat),
      addr + data.length ≤ MEM_SIZE →
      ∃ m2, HM62256BLogic.load m addr data = some m2 ∧
        ∀ i (h : i < data.length),
          HM62256BLogic.read_byte m2 (addr + i) = some (data.get ⟨i, h⟩)) ∧
    HM62256BLogic.load (fun _ => 0) 32760 (List.replicate 16 0) = none := by
  constructor
  · intro m addr data hlen
    obtain ⟨m2, hl, _, hr⟩ := load_go_spec data m addr hlen
    refine ⟨m2, hl, ?_⟩
    intro i h
    have hib : addr + i < MEM_SIZE := by omega
    rw [HM62256BLogic.read_byte, if_pos hib, hr i h]
  · rfl

/-- C10 witness: the in-bounds load law applied to three bytes at
address 5. -/
theorem c10_load_bounds_witness :
    (5 : Nat) + ([1, 2, 3] : List Nat).length ≤ MEM_SIZE ∧
    ∃ m2, HM62256BLogic.load (fun _ => 0) 5 [1, 2, 3] = some m2 ∧
      ∀ i (h : i < ([1, 2, 3] : List Nat).length),
        HM62256BLogic.read_byte m2 (5 + i) =
          some (([1, 2, 3] : List Nat).get ⟨i, h⟩) :=
  ⟨by decide, c10_load_bounds.1 (fun _ => 0) 5 [1, 2, 3] (by decide)⟩

lemma jmp_stepper_indirect_eq (mem : Nat → Nat) (st : StepSt) (fn : String) :
    (jmp_stepper ⟨Mnemonic.JMP, AddressMode.Indirect, fn⟩ mem st).2.1 =
      [BusEv.read st.cpu.pc (busByte mem st.cpu.pc),
       BusEv.read ((st.cpu.pc + 1) % 65536) (busByte mem ((st.cpu.pc + 1) % 65536)),
       BusEv.read
         (u16_from_le (busByte mem st.cpu.pc) (busByte mem ((st.cpu.pc + 1) % 65536)))
         (busByte mem
           (u16_from_le (busByte mem st.cpu.pc) (busByte mem ((st.cpu.pc + 1) % 65536)))),
       BusEv.read
         (u16_from_le ((busByte mem st.cpu.pc + 1) % 256)
           (busByte mem ((st.cpu.pc + 1) % 65536)))
         (busByte mem
           (u16_from_le ((busByte mem st.cpu.pc + 1) % 256)
             (busByte mem ((st.cpu.pc + 1) % 65536))))] ∧
    (jmp_stepper ⟨Mnemonic.JMP, AddressMode.Indirect, fn⟩ mem st).1.cpu.pc =
      u16_from_le
        (busByte mem
          (u16_from_le (busByte mem st.cpu.pc) (busByte mem ((st.cpu.pc + 1) % 65536))))
        (busByte mem
          (u16_from_le ((busByte mem st.cpu.pc + 1) % 256)
            (busByte mem ((st.cpu.pc + 1) % 65536)))) ∧
    (jmp_stepper ⟨Mnemonic.JMP, AddressMode.Indirect, fn⟩ mem st).2.2 = 8 :=
  ⟨rfl, rfl, rfl⟩

/-- C4: for an indirect JMP whose pointer low byte is 0xFF, the target
low byte is read at the pointer address and the target high byte at the
same page with the low byte wrapped to 0x00 (no carry into the high
byte), and PC is set from those two bytes; the absolute JMP form sets PC
from the two fetched bytes in 3 cycles (6 half-cycle suspensions
including the 2 of the opcode fetch). -/
theorem c4_jmp_pagewrap_and_absolute :
    (∀ (mem : Nat → Nat) (st : StepSt) (fn : String),
      busByte mem st.cpu.pc = 0xff →
      (jmp_stepper ⟨Mnemonic.JMP, AddressMode.Indirect, fn⟩ mem st).2.1 =
        [BusEv.read st.cpu.pc 0xff,
         BusEv.read ((st.cpu.pc + 1) % 65536) (busByte mem ((st.cpu.pc + 1) % 65536)),
         BusEv.read (u16_from_le 0xff (busByte mem ((st.cpu.pc + 1) % 65536)))
           (busByte mem (u16_from_le 0xff (busByte mem ((st.cpu.pc + 1) % 65536)))),
         BusEv.read (u16_from_le 0 (busByte mem ((st.cpu.pc + 1) % 65536)))
           (busByte mem (u16_from_le 0 (busByte mem ((st.cpu.pc + 1) % 65536))))] ∧
      (jmp_stepper ⟨Mnemonic.JMP, AddressMode.Indirect, fn⟩ mem st).1.cpu.pc =
        u16_from_le
          (busByte mem (u16_from_le 0xff (busByte mem ((st.cpu.pc + 1) % 65536))))
          (busByte mem (u16_from_le 0 (busByte mem ((st.cpu.pc + 1) % 65536)))) ∧
      (jmp_stepper ⟨Mnemonic.JMP, AddressMode.Indirect, fn⟩ mem st).2.2 = 8) ∧
    (∀ (mem : Nat → Nat) (st : StepSt) (fn : String),
      (jmp_stepper ⟨Mnemonic.JMP, AddressMode.Absolute, fn⟩ mem st).1.cpu.pc =
        u16_from_le (busByte mem st.cpu.pc) (busByte mem ((st.cpu.pc + 1) % 65536)) ∧
      (read_opcode mem st).2.2 +
        (jmp_stepper ⟨Mnemonic.JMP, AddressMode.Absolute, fn⟩ mem st).2.2 = 2 * 3) := by
  constructor
  · intro mem st fn hlo
    obtain ⟨e1, e2, e3⟩ := jmp_stepper_indirect_eq mem st fn
    rw [hlo] at e1 e2
    norm_num at e1 e2
    exact ⟨e1, e2, e3⟩
  · intro mem st fn
    exact ⟨rfl, rfl⟩

/-- Concrete memory image for the JMP ($10FF) example: the 3-byte
instruction operand at $0300 points at $10FF, memory holds 0x34 at $10FF
and 0x12 at $1000. -/
def jmp_demo_mem : Nat → Nat := fun a =>
  if a = 0x300 then 0xff else if a = 0x301 then 0x10 else
  if a = 0x10ff then 0x34 else if a = 0x1000 then 0x12 else 0

def jmp_demo_st : StepSt := { cpu := { CpuState.default with pc := 0x300 } }

/-- C4 witness: JMP ($10FF) reads ADL from $10FF and ADH from $1000, not
$1100, and lands at $1234. -/
theorem c4_jmp_pagewrap_witness :
    busByte jmp_demo_mem jmp_demo_st.cpu.pc = 0xff ∧
    ((jmp_stepper ⟨Mnemonic.JMP, AddressMode.Indirect, "op_jmp"⟩ jmp_demo_mem
        jmp_demo_st).2.1 =
      [BusEv.read jmp_demo_st.cpu.pc 0xff,
       BusEv.read ((jmp_demo_st.cpu.pc + 1) % 65536)
         (busByte jmp_demo_mem ((jmp_demo_st.cpu.pc + 1) % 65536)),
       BusEv.read
         (u16_from_le 0xff (busByte jmp_demo_mem ((jmp_demo_st.cpu.pc + 1) % 65536)))
         (busByte jmp_demo_mem
           (u16_from_le 0xff (busByte jmp_demo_mem ((jmp_demo_st.cpu.pc + 1) % 65536)))),
       BusEv.read
         (u16_from_le 0 (busByte jmp_demo_mem ((jmp_demo_st.cpu.pc + 1) % 65536)))
         (busByte jmp_demo_mem
           (u16_from_le 0 (busByte jmp_demo_mem ((jmp_demo_st.cpu.pc + 1) % 65536))))] ∧
     (jmp_stepper ⟨Mnemonic.JMP, AddressMode.Indirect, "op_jmp"⟩ jmp_demo_mem
        jmp_demo_st).1.cpu.pc =
      u16_from_le
        (busByte jmp_demo_mem
          (u16_from_le 0xff (busByte jmp_demo_mem ((jmp_demo_st.cpu.pc + 1) % 65536))))
        (busByte jmp_demo_mem
          (u16_from_le 0 (busByte jmp_demo_mem ((jmp_demo_st.cpu.pc + 1) % 65536)))) ∧
     (jmp_stepper ⟨Mnemonic.JMP, AddressMode.Indirect, "op_jmp"⟩ jmp_demo_mem
        jmp_demo_st).2.2 = 8) :=
  ⟨by decide,
   c4_jmp_pagewrap_and_absolute.1 jmp_demo_mem jmp_demo_st "op_jmp" (by decide)⟩

/-- C3 (code bug): PHA followed by PLA does not complete — the executor
dispatch has no active arm for the push/pull tags, so `execute_operation`
panics ("Unidentified function name") already during PHA's third cycle,
and would panic during PLA as well; the push stepper therefore aborts
(result `none`) after the dummy read, before any stack access. -/
theorem c3_pha_pla_panic :
    execute_operation { CpuState.default with a := 0x42 }
        ⟨Mnemonic.PHA, AddressMode.Implicit, fn_name_of Mnemonic.PHA⟩ 0 = none ∧
    execute_operation CpuState.default
        ⟨Mnemonic.PLA, AddressMode.Implicit, fn_name_of Mnemonic.PLA⟩ 0x42 = none ∧
    (push_stepper ⟨Mnemonic.PHA, AddressMode.Implicit, fn_name_of Mnemonic.PHA⟩
        (fun _ => 0) { cpu := { CpuState.default with a := 0x42 } }).2.2 = none ∧
    (pull_stepper ⟨Mnemonic.PLA, AddressMode.Implicit, fn_name_of Mnemonic.PLA⟩
        (fun _ => 0) { cpu := CpuState.default }).2.2 = none := by
  refine ⟨rfl, rfl, rfl, rfl⟩

/-- C5 (code bug): an absolute-mode ASL correctly fetches the address
bytes, reads the value and writes the same value back (bus-visible), but
`execute_operation` has no active arm for the shift tag, so the stepper
panics (`none`) after 7 half-cycle suspensions — the new value is never
computed or written, cutting the documented 6-cycle sequence short. -/
theorem c5_rmw_panics_before_final_write :
    execute_operation CpuState.default
        ⟨Mnemonic.ASL, AddressMode.Absolute, fn_name_of Mnemonic.ASL⟩ 0x41 = none ∧
    rmw_stepper ⟨Mnemonic.ASL, AddressMode.Absolute, fn_name_of Mnemonic.ASL⟩
        (fun a => if a = 0x200 then 0x05 else if a = 0x201 then 0x02 else
                  if a = 0x205 then 0x41 else 0)
        { cpu := { CpuState.default with pc := 0x200 } } =
      ([BusEv.read 0x200 0x05, BusEv.read 0x201 0x02,
        BusEv.read 0x205 0x41, BusEv.write 0x205 0x41], 7, none) := by
  refine ⟨rfl, by decide⟩

/-- C6 (code bug): `op_transfer` performs the TSX transfer (X receives
SP) but sets N and Z from the accumulator instead of the transferred
value: with A = 0x01 and SP = 0x80, X becomes 0x80 yet N ends up 0 —
the claim requires N = bit7(0x80) = 1. -/
theorem c6_tsx_flags_from_accumulator :
    ∃ s2 : CpuState,
      op_transfer { CpuState.default with a := 0x01, sp := 0x80 }
          ⟨Mnemonic.TSX, AddressMode.Implicit, fn_name_of Mnemonic.TSX⟩ 0 =
        some (s2, 0) ∧
      s2.x = 0x80 ∧
      s2.p.testBit 7 = false ∧
      s2.p.testBit 1 = false :=
  ⟨⟨0, 1, 0x80, 0, 0, 0x80, 0x20⟩, by decide⟩

/-- C7 (code bug): the OE arm of `HM62256B::on_pin_state_change` computes
the data-port direction as `!OE || WE`, so when OE goes high while WE is
high (CS low) the D port is switched to Output — the claim (and the
chip's own state table) requires Input; likewise OE going low with WE low
yields Output instead of Input. -/
theorem c7_oe_direction_formula :
    (hm_on_oe_change { cs := false, we := true, oe := false,
                       dDir := PinDirection.Output } true).dDir =
      PinDirection.Output ∧
    (hm_on_oe_change { cs := false, we := false, oe := true,
                       dDir := PinDirection.Input } false).dDir =
      PinDirection.Output ∧
    PinDirection.Output ≠ PinDirection.Input := by
  refine ⟨rfl, rfl, by decide⟩

end Spinter
